import Mathlib

/-!
Verification of the western-blot figure tool (src/src/mainb.py, the final
iteration; src/src/maina.py shares the relevant code for the gesture logic).

Shallow embedding conventions:
* Python floats (scene y coordinates, kDa values, layout arithmetic) are
  modelled as exact rationals; the operations involved are comparisons,
  additions and subtractions only.
* Qt integer rectangles (QRect) are modelled with their stored corner
  coordinates x1, y1, x2, y2, where width = x2 - x1 + 1 (Qt convention:
  right() = x2 = left + width - 1).
* Toolkit collaborators (QPixmap.copy, QRect.normalized, mapToScene,
  QRectF.toRect, text metrics) are modelled after their documented Qt 6
  semantics; text metrics (label bounding rectangles) are parameters.
* Mutation of the window object's fields is modelled by state passing on a
  `Session` record; Python code paths that would raise (attribute access on
  None) return `Option.none`.
-/

namespace WBlot

/-- A decoded raster: dimensions plus a pixel lookup (abstract colour value).
Models QPixmap. An image is "null" when a dimension is non-positive. -/
structure Image where
  w : ℤ
  h : ℤ
  px : ℤ → ℤ → ℕ

/-- Qt: QPixmap.isNull / an image with no pixels. -/
def Image.isNull (i : Image) : Prop := i.w ≤ 0 ∨ i.h ≤ 0

instance (i : Image) : Decidable i.isNull :=
  inferInstanceAs (Decidable (i.w ≤ 0 ∨ i.h ≤ 0))

/-- Qt QRect: stores its corners; width() = x2 - x1 + 1, height() = y2 - y1 + 1,
top() = y1, bottom() = y2, left() = x1, right() = x2. -/
structure QRectI where
  x1 : ℤ
  y1 : ℤ
  x2 : ℤ
  y2 : ℤ
deriving DecidableEq

def QRectI.width (r : QRectI) : ℤ := r.x2 - r.x1 + 1

def QRectI.height (r : QRectI) : ℤ := r.y2 - r.y1 + 1

/-- Qt QRect.isEmpty: width ≤ 0 or height ≤ 0. -/
def QRectI.isEmpty (r : QRectI) : Prop := r.x2 < r.x1 ∨ r.y2 < r.y1

instance (r : QRectI) : Decidable r.isEmpty :=
  inferInstanceAs (Decidable (r.x2 < r.x1 ∨ r.y2 < r.y1))

/-- Qt QRect.translated(dx, dy). -/
def QRectI.translated (r : QRectI) (dx dy : ℤ) : QRectI :=
  ⟨r.x1 + dx, r.y1 + dy, r.x2 + dx, r.y2 + dy⟩

/-- Qt QRect.intersected, corner arithmetic (the result represents the empty
rectangle when the operands are disjoint). -/
def QRectI.inter (a b : QRectI) : QRectI :=
  ⟨max a.x1 b.x1, max a.y1 b.y1, min a.x2 b.x2, min a.y2 b.y2⟩

/-- The rectangle covered by an image, in its own pixel space. -/
def Image.bounds (i : Image) : QRectI := ⟨0, 0, i.w - 1, i.h - 1⟩

/-- Qt QPixmap.copy(rect): a null pixmap copies to a null pixmap; an empty
request rectangle copies the whole pixmap (documented Qt behaviour); otherwise
the request is intersected with the pixmap bounds and that sub-area is
extracted.  When the intersection is empty the result is a null pixmap (the
clamped dimensions are 0 and the pixel function is never consulted). -/
def pixmapCopy (pm : Image) (rect : QRectI) : Image :=
  if pm.isNull then ⟨0, 0, fun _ _ => 0⟩
  else
    let rr := if rect.isEmpty then pm.bounds else pm.bounds.inter rect
    ⟨max 0 rr.width, max 0 rr.height, fun i j => pm.px (rr.x1 + i) (rr.y1 + j)⟩

/-- One kDa marker record, as stored in MainWindow.kda_markers:
a dict with keys y (scene y coordinate), kda (user value), line and text
(the two graphics items drawn for it, kept here as the scene item ids;
item ids are allocated in increasing order, so they witness insertion order). -/
structure MarkerEntry where
  y : ℚ
  kda : ℚ
  line : ℕ
  text : ℕ
deriving DecidableEq

/-- Scene items (QGraphicsScene contents): tick lines, value labels, the
pixmap item, and the startup-message items (modelled opaquely). -/
inductive SItem
  | line (itemId : ℕ) (x0 y0 x1 y1 : ℚ)
  | label (itemId : ℕ) (val : ℚ) (x y : ℚ)
  | pixItem (itemId : ℕ) (img : Image) (x y : ℤ)
  | other (itemId : ℕ)

def SItem.itemId : SItem → ℕ
  | .line i _ _ _ _ => i
  | .label i _ _ _ => i
  | .pixItem i _ _ _ => i
  | .other i => i

/-- The label's size as reported by the toolkit text metrics
(QGraphicsSimpleTextItem.boundingRect) -- a host collaborator, passed in. -/
structure LabelSize where
  w : ℚ
  h : ℚ
deriving DecidableEq

/-- Output geometry of the annotation renderer. -/
structure LayoutOut where
  tickStartX : ℚ
  tickStartY : ℚ
  tickEndX : ℚ
  tickEndY : ℚ
  labelX : ℚ
  labelY : ℚ
deriving DecidableEq

/-- The tick/label geometry computed in add_kda_marker (mainb.py lines
184-202): x1 = left_margin - 2.0, x0 = x1 - tickLength (the source uses the
session constants tickLength = 20.0 and labelGap = 6.0 at the call site),
label at (x0 - gap - br.width, scene_y - br.height / 2), tick drawn from
(x0, scene_y) to (x1, scene_y). -/
def layout (sceneY leftMargin tickLength labelGap : ℚ) (ls : LabelSize) : LayoutOut :=
  let x1 := leftMargin - 2
  let x0 := x1 - tickLength
  ⟨x0, sceneY, x1, sceneY, x0 - labelGap - ls.w, sceneY - ls.h / 2⟩

/-- The session state held on the MainWindow object:
current_pixmap, pixmap_item (with its scene position), kda_markers,
the scene's items, the next fresh graphics-item id, and left_margin. -/
structure Session where
  currentPixmap : Option Image
  pixmapItem : Option (ℤ × ℤ)
  kdaMarkers : List MarkerEntry
  scene : List SItem
  nextItemId : ℕ
  leftMargin : ℤ

/-- MainWindow.__init__ followed by show_startup_message: no image, no
markers, two startup-message items in the scene, left_margin = 60. -/
def initSession : Session :=
  ⟨none, none, [], [SItem.other 0, SItem.other 1], 2, 60⟩

/-- open_image (mainb.py lines 149-169).  The file-dialog/decode collaborator
is a parameter: `none` when no path was chosen, otherwise the decoded pixmap
(which is null exactly when decoding failed).  Only after both guards pass is
the old state discarded: the pixmap is stored, the scene cleared, the markers
cleared, and the pixmap item placed at (left_margin, 0). -/
def openImage (s : Session) (dialog : Option Image) : Session :=
  match dialog with
  | none => s
  | some pixmap =>
    if pixmap.isNull then s
    else
      { currentPixmap := some pixmap
        pixmapItem := some (s.leftMargin, 0)
        kdaMarkers := []
        scene := [SItem.pixItem s.nextItemId pixmap s.leftMargin 0]
        nextItemId := s.nextItemId + 1
        leftMargin := s.leftMargin }

/-- The sort key relation used by kda_markers.sort(key=lambda d: d["y"]). -/
def yle (a b : MarkerEntry) : Prop := a.y ≤ b.y

instance : DecidableRel yle := fun a b => inferInstanceAs (Decidable (a.y ≤ b.y))

instance : IsTotal MarkerEntry yle := ⟨fun a b => le_total a.y b.y⟩

instance : IsTrans MarkerEntry yle := ⟨fun _ _ _ h1 h2 => le_trans h1 h2⟩

/-- add_kda_marker (mainb.py lines 178-206).  The kDa input dialog is a
parameter (`none` models a cancelled dialog); the label's measured size is a
parameter (text-metrics collaborator).  On the success path the tick line and
label are added to the scene, and the marker dict is appended to kda_markers
which is then re-sorted by y.  Python's list.sort is a stable sort; it is
modelled by `List.insertionSort`, the canonical stable sort (any two stable
sorts by the same key agree on every input). -/
def addKdaMarker (s : Session) (sceneY : ℚ) (dialog : Option ℚ)
    (labelW labelH : ℚ) : Session :=
  match dialog with
  | none => s
  | some val =>
    match s.pixmapItem with
    | none => s
    | some _ =>
      let g := layout sceneY (s.leftMargin : ℚ) 20 6 ⟨labelW, labelH⟩
      let lineId := s.nextItemId
      let textId := s.nextItemId + 1
      let entry : MarkerEntry := ⟨sceneY, val, lineId, textId⟩
      { s with
        scene := s.scene ++
          [SItem.line lineId g.tickStartX g.tickStartY g.tickEndX g.tickEndY,
           SItem.label textId val g.labelX g.labelY]
        kdaMarkers := List.insertionSort yle (s.kdaMarkers ++ [entry])
        nextItemId := s.nextItemId + 2 }

/-- undo_last_kda (mainb.py lines 208-213): if the marker list is non-empty,
pop its last element and remove that marker's two graphics items. -/
def undoLastKda (s : Session) : Session :=
  match s.kdaMarkers.getLast? with
  | none => s
  | some last =>
    { s with
      kdaMarkers := s.kdaMarkers.dropLast
      scene := s.scene.filter
        (fun it => !(it.itemId == last.line) && !(it.itemId == last.text)) }

/-- clear_all_kda (mainb.py lines 215-219): remove every marker's graphics
items and empty the marker list. -/
def clearAllKda (s : Session) : Session :=
  { s with
    kdaMarkers := []
    scene := s.scene.filter
      (fun it => s.kdaMarkers.all
        (fun m => !(it.itemId == m.line) && !(it.itemId == m.text))) }

/-- The data shown by show_cropped_with_ticks (mainb.py lines 239-276): the
cropped pixmap and, for each surviving marker, the tick drawn at
y_local = m["y"] - src_scene_rect.top() together with its kDa value (the
preview's own geometry re-uses `layout` with its fixed left margin of 60). -/
structure CropOut where
  image : Image
  ticks : List (ℚ × ℚ)

def showCroppedWithTicks (pixmap : Image) (markers : List MarkerEntry)
    (srcTop : ℤ) : CropOut :=
  ⟨pixmap, markers.map (fun m => (m.y - (srcTop : ℚ), m.kda))⟩

/-- crop_region (mainb.py lines 228-237): translate the scene rectangle by
minus the pixmap item's position, copy that sub-rectangle of the current
pixmap, keep the markers whose y lies in [top, bottom] of the scene
rectangle, and show the preview.  Accessing pixmap_item.pos() (or
current_pixmap) when it is None would raise in Python; that path is `none`.
The session state is returned alongside the result: no field is written. -/
def cropRegion (s : Session) (sceneRect : QRectI) : Option (Session × CropOut) :=
  match s.pixmapItem with
  | none => none
  | some off =>
    match s.currentPixmap with
    | none => none
    | some pix =>
      let pixRect := sceneRect.translated (-off.1) (-off.2)
      let cropped := pixmapCopy pix pixRect
      let inside := s.kdaMarkers.filter
        (fun m => decide ((sceneRect.y1 : ℚ) ≤ m.y) && decide (m.y ≤ (sceneRect.y2 : ℚ)))
      some (s, showCroppedWithTicks cropped inside sceneRect.y1)

/-- The selection-and-re-basing step exactly as the specification words it
(spec section 4.4, step 4): keep the markers with top ≤ y ≤ bottom, inclusive
at both ends, and re-base each kept marker to y - top.  Stated separately so
the code pipeline can be compared against it. -/
def specCropMarkers (ms : List MarkerEntry) (top bottom : ℚ) : List (ℚ × ℚ) :=
  (ms.filter (fun m => decide (top ≤ m.y) && decide (m.y ≤ bottom))).map
    (fun m => (m.y - top, m.kda))

/-- Modelled from the spec: the Coordinate Mapper's sceneToImage
(spec section 4.1) with its out-of-bounds indicator is not a separate function
in the source; the subtraction of (leftMargin, 0) mirrors crop_region's
translation (mainb.py line 231) and the placement of the pixmap at
(left_margin, 0) in open_image (line 165); the bounds check follows the
spec's words. -/
def sceneToImage (p : ℤ × ℤ) (leftMargin imgW imgH : ℤ) : Option (ℤ × ℤ) :=
  let q := (p.1 - leftMargin, p.2)
  if 0 ≤ q.1 ∧ q.1 < imgW ∧ 0 ≤ q.2 ∧ q.2 < imgH then some q else none

/-- The Coordinate Mapper's imageToScene: adds (leftMargin, 0), mirroring the
pixmap placement offset in open_image (mainb.py line 165). -/
def imageToScene (p : ℤ × ℤ) (leftMargin : ℤ) : ℤ × ℤ :=
  (p.1 + leftMargin, p.2)

/-- A concrete 100x100 test image and the session right after opening it. -/
def imgTest : Image := ⟨100, 100, fun _ _ => 0⟩

def sOpen : Session := openImage initSession (some imgTest)

/-- The session after additionally placing one marker at scene y = 50 with
kDa value 25 (label measured 12 x 4). -/
def sMark : Session := addKdaMarker sOpen 50 (some 25) 12 4

/-- C5: for every integer scene point p and margin m, converting to image
space and back returns p whenever sceneToImage does not report out-of-bounds.
Both conversions are exact integer translations by (leftMargin, 0), so
repeated conversions accumulate no off-by-one drift. -/
theorem scene_image_round_trip (p q : ℤ × ℤ) (m imgW imgH : ℤ)
    (hq : sceneToImage p m imgW imgH = some q) : imageToScene q m = p := by
  simp only [sceneToImage] at hq
  split at hq
  · cases hq
    simp [imageToScene]
  · cases hq

theorem scene_image_round_trip_witness : imageToScene (10, 5) 60 = (70, 5) :=
  scene_image_round_trip (70, 5) (10, 5) 60 100 100 (by decide)

/-- C6: the annotation layout places the tick end at leftMargin - 2, the tick
start one tick-length further left, both at the marker's y; the label origin
sits labelGap + labelWidth left of the tick start and is vertically centred on
the tick.  At leftMargin = 60, tickLength = 20, labelGap = 6, a marker at
y = 50 with a 30 x 12 label yields tickEnd = (58, 50), tickStart = (38, 50),
labelOrigin = (2, 44). -/
theorem layout_geometry (y lm tl lg wd ht : ℚ) :
    (layout y lm tl lg ⟨wd, ht⟩).tickEndX = lm - 2 ∧
    (layout y lm tl lg ⟨wd, ht⟩).tickStartX = (layout y lm tl lg ⟨wd, ht⟩).tickEndX - tl ∧
    (layout y lm tl lg ⟨wd, ht⟩).tickStartY = y ∧
    (layout y lm tl lg ⟨wd, ht⟩).tickEndY = y ∧
    (layout y lm tl lg ⟨wd, ht⟩).labelX =
      (layout y lm tl lg ⟨wd, ht⟩).tickStartX - lg - wd ∧
    (layout y lm tl lg ⟨wd, ht⟩).labelY = y - ht / 2 ∧
    layout 50 60 20 6 ⟨30, 12⟩ = ⟨38, 50, 58, 50, 2, 44⟩ :=
  ⟨rfl, rfl, rfl, rfl, rfl, rfl, by norm_num [layout, LayoutOut.mk.injEq]⟩

/-- C9: aborted operations leave the session untouched.  Open-image with no
path chosen, or with a pixmap that failed to decode (isNull), returns with the
previous image, scene and markers intact -- the old state is discarded only
after a successful decode.  Cancelling the kDa input dialog adds no marker and
creates no scene item. -/
theorem aborted_ops_leave_state_unchanged (s : Session) (pix : Image)
    (y labelW labelH : ℚ) (hnull : pix.isNull) :
    openImage s none = s ∧ openImage s (some pix) = s ∧
    addKdaMarker s y none labelW labelH = s :=
  ⟨rfl, by simp [openImage, hnull], rfl⟩

theorem aborted_ops_leave_state_unchanged_witness :
    openImage initSession none = initSession ∧
    openImage initSession (some ⟨0, 0, fun _ _ => 0⟩) = initSession ∧
    addKdaMarker initSession 50 none 12 4 = initSession :=
  aborted_ops_leave_state_unchanged initSession ⟨0, 0, fun _ _ => 0⟩ 50 12 4
    (by decide)

/-- C7: crop never mutates the source image or the live marker store.  The
session crop_region returns alongside its result is the input session itself,
so the image, the marker count, their order and their y / kDa values are
exactly as before; the re-based values in the preview are freshly computed. -/
theorem crop_preserves_session (s : Session) (r : QRectI)
    (h1 : s.pixmapItem.isSome = true) (h2 : s.currentPixmap.isSome = true) :
    (cropRegion s r).map (fun out => out.1) = some s := by
  rcases hpi : s.pixmapItem with _ | off
  · rw [hpi] at h1; simp at h1
  · rcases hcp : s.currentPixmap with _ | pix
    · rw [hcp] at h2; simp at h2
    · simp [cropRegion, hpi, hcp]

theorem crop_preserves_session_witness :
    (cropRegion sOpen ⟨60, 0, 69, 9⟩).map (fun out => out.1) = some sOpen :=
  crop_preserves_session sOpen ⟨60, 0, 69, 9⟩ (by decide) (by decide)

/-- C2: the crop pipeline (crop_region's filter followed by the preview's
re-basing) keeps exactly the markers with top ≤ y ≤ bottom, inclusive at both
ends, each re-based to y - top -- the spec-side formula specCropMarkers.  In
particular a marker at y = 120 under a selection with top = 100, bottom = 200
yields one re-based marker at 20, and a marker at y = 5 is excluded. -/
theorem crop_markers_filter_rebased (s : Session) (r : QRectI)
    (h1 : s.pixmapItem.isSome = true) (h2 : s.currentPixmap.isSome = true) :
    (cropRegion s r).map (fun out => out.2.ticks) =
      some (specCropMarkers s.kdaMarkers (r.y1 : ℚ) (r.y2 : ℚ)) ∧
    specCropMarkers [⟨120, 42, 0, 1⟩, ⟨5, 9, 2, 3⟩] 100 200 = [(20, 42)] := by
  constructor
  · rcases hpi : s.pixmapItem with _ | off
    · rw [hpi] at h1; simp at h1
    · rcases hcp : s.currentPixmap with _ | pix
      · rw [hcp] at h2; simp at h2
      · simp [cropRegion, hpi, hcp, showCroppedWithTicks, specCropMarkers]
  · norm_num [specCropMarkers]

theorem crop_markers_filter_rebased_witness :
    (cropRegion sOpen ⟨60, 0, 69, 9⟩).map (fun out => out.2.ticks) =
      some (specCropMarkers sOpen.kdaMarkers ((QRectI.mk 60 0 69 9).y1 : ℚ)
        ((QRectI.mk 60 0 69 9).y2 : ℚ)) ∧
    specCropMarkers [⟨120, 42, 0, 1⟩, ⟨5, 9, 2, 3⟩] 100 200 = [(20, 42)] :=
  crop_markers_filter_rebased sOpen ⟨60, 0, 69, 9⟩ (by decide) (by decide)

/-- C1 (code-bug evidence): evaluating the store at the failing input.  Insert
marker A at y = 10 (kDa 100), then marker B at y = 5 (kDa 70), then Undo Last
kDa.  Because add_kda_marker re-sorts the list by y and undo_last_kda pops the
last element of that sorted list, the pop removes A -- the first-placed marker
with the greatest y -- leaving exactly {B}; an insertion-order stack, as the
menu entry "Undo Last kDa" and the spec describe, would remove B and leave
{A}. -/
theorem undo_last_pops_sorted_max_not_most_recent :
    ((undoLastKda (addKdaMarker (addKdaMarker sOpen 10 (some 100) 12 4)
        5 (some 70) 12 4)).kdaMarkers.map (fun m => (m.y, m.kda))) =
      [(5, 70)] := by
  decide

/-- C4 counterexample: for the scene selection with corners (60, 0) and
(59, 99) -- zero width, the kind of degenerate rectangle a sub-pixel drag
rounds to -- the translated pixel rectangle is (0, 0)-(-1, 99), degenerate
before and after clipping to the 100 x 100 image; yet crop returns the WHOLE
100 x 100 image (Qt copies the full pixmap when the request rectangle is
empty) and a non-empty marker list [(50, 25)], so neither "empty image" nor
"empty marker list" holds. -/
theorem degenerate_crop_cex :
    (QRectI.translated ⟨60, 0, 59, 99⟩ (-60) 0).isEmpty ∧
    (imgTest.bounds.inter (QRectI.translated ⟨60, 0, 59, 99⟩ (-60) 0)).isEmpty ∧
    (cropRegion sMark ⟨60, 0, 59, 99⟩).map
        (fun out => (out.2.image.w, out.2.image.h, out.2.ticks)) =
      some (100, 100, [(50, 25)]) := by
  refine ⟨by decide, by decide, ?_⟩
  norm_num [cropRegion, sMark, sOpen, openImage, initSession, imgTest, addKdaMarker,
    showCroppedWithTicks, pixmapCopy, Image.isNull, QRectI.isEmpty, QRectI.translated,
    Image.bounds, QRectI.inter, QRectI.width, QRectI.height, layout,
    List.insertionSort, List.orderedInsert, yle]

/-- C4 amended: when the selection rectangle, translated into image-pixel
space and clipped to the image bounds, is degenerate, crop still does not
fail; if the translated rectangle itself is non-degenerate (only the clipping
made it so) the returned image is empty; and the returned marker list is, in
every case, the markers whose y lies within [top, bottom] of the scene
selection re-based by -top -- a list that need not be empty (a selection
hovering over the left margin keeps every marker in its vertical span). -/
theorem degenerate_crop_amended (s : Session) (off : ℤ × ℤ) (pix : Image)
    (r : QRectI) (hpi : s.pixmapItem = some off) (hcp : s.currentPixmap = some pix)
    (hdeg : (pix.bounds.inter (r.translated (-off.1) (-off.2))).isEmpty) :
    ∃ res : CropOut,
      cropRegion s r = some (s, res) ∧
      (¬ (r.translated (-off.1) (-off.2)).isEmpty → res.image.isNull) ∧
      res.ticks = specCropMarkers s.kdaMarkers (r.y1 : ℚ) (r.y2 : ℚ) := by
  refine ⟨showCroppedWithTicks (pixmapCopy pix (r.translated (-off.1) (-off.2)))
      (s.kdaMarkers.filter
        (fun m => decide ((r.y1 : ℚ) ≤ m.y) && decide (m.y ≤ (r.y2 : ℚ)))) r.y1,
    ?_, ?_, ?_⟩
  · simp [cropRegion, hpi, hcp, showCroppedWithTicks]
  · intro hne
    show (pixmapCopy pix (r.translated (-off.1) (-off.2))).isNull
    have hdeg2 :
        (pix.bounds.inter (r.translated (-off.1) (-off.2))).x2 <
            (pix.bounds.inter (r.translated (-off.1) (-off.2))).x1 ∨
          (pix.bounds.inter (r.translated (-off.1) (-off.2))).y2 <
            (pix.bounds.inter (r.translated (-off.1) (-off.2))).y1 := hdeg
    unfold pixmapCopy
    by_cases hn : pix.isNull
    · rw [if_pos hn]
      simp [Image.isNull]
    · rw [if_neg hn]
      simp only [if_neg hne, Image.isNull, QRectI.width, QRectI.height]
      simp only [QRectI.inter, Image.bounds, QRectI.translated] at hdeg2 ⊢
      omega
  · simp [showCroppedWithTicks, specCropMarkers]

theorem degenerate_crop_amended_witness :
    ∃ res : CropOut,
      cropRegion sMark ⟨0, 0, 9, 99⟩ = some (sMark, res) ∧
      (¬ ((QRectI.mk 0 0 9 99).translated (-(60 : ℤ)) (-(0 : ℤ))).isEmpty →
        res.image.isNull) ∧
      res.ticks = specCropMarkers sMark.kdaMarkers ((QRectI.mk 0 0 9 99).y1 : ℚ)
        ((QRectI.mk 0 0 9 99).y2 : ℚ) :=
  degenerate_crop_amended sMark (60, 0) imgTest ⟨0, 0, 9, 99⟩ rfl rfl (by decide)

/-- Stability order: among markers of equal y, the graphics-item ids (which
are allocated in insertion order) must be strictly increasing. -/
def stably (a b : MarkerEntry) : Prop := a.y = b.y → a.line < b.line

/-- The marker-store operations of claim C3: insert (an add_kda_marker call
with its dialog outcome and measured label size), undo-last and clear-all. -/
inductive StoreOp
  | add (sceneY : ℚ) (dialog : Option ℚ) (labelW labelH : ℚ)
  | undo
  | clear

def storeStep (s : Session) (op : StoreOp) : Session :=
  match op with
  | .add y dialog lw lh => addKdaMarker s y dialog lw lh
  | .undo => undoLastKda s
  | .clear => clearAllKda s

def runStoreOps (ops : List StoreOp) : Session :=
  ops.foldl storeStep sOpen

lemma pairwise_orderedInsert_of (q : MarkerEntry → MarkerEntry → Prop)
    (hq : ∀ a b, ¬ yle a b → q b a) (x : MarkerEntry) :
    ∀ l : List MarkerEntry, l.Pairwise q → (∀ b ∈ l, q x b) →
      (l.orderedInsert yle x).Pairwise q := by
  intro l
  induction l with
  | nil =>
    intro _ _
    simp [List.orderedInsert]
  | cons b t ih =>
    intro hp hx
    rcases List.pairwise_cons.mp hp with ⟨hbt, hpt⟩
    rw [List.orderedInsert]
    by_cases h : yle x b
    · rw [if_pos h]
      exact List.Pairwise.cons hx hp
    · rw [if_neg h]
      refine List.Pairwise.cons ?_
        (ih hpt (fun c hc => hx c (List.mem_cons_of_mem b hc)))
      intro c hc
      rcases (List.mem_orderedInsert yle).mp hc with rfl | hc
      · exact hq _ b h
      · exact hbt c hc

lemma pairwise_insertionSort_of (q : MarkerEntry → MarkerEntry → Prop)
    (hq : ∀ a b, ¬ yle a b → q b a) :
    ∀ l : List MarkerEntry, l.Pairwise q →
      (List.insertionSort yle l).Pairwise q := by
  intro l
  induction l with
  | nil => intro _; exact List.Pairwise.nil
  | cons a t ih =>
    intro hp
    rcases List.pairwise_cons.mp hp with ⟨hat, hpt⟩
    rw [List.insertionSort]
    exact pairwise_orderedInsert_of q hq a _ (ih hpt)
      (fun b hb => hat b ((List.mem_insertionSort yle).mp hb))

/-- The marker-store invariant: sorted by y, stable (ids increasing among
equal y), and every stored id is below the allocator's next id. -/
def MInv (s : Session) : Prop :=
  s.kdaMarkers.Pairwise yle ∧ s.kdaMarkers.Pairwise stably ∧
    ∀ m ∈ s.kdaMarkers, m.line < s.nextItemId

lemma minv_addKdaMarker (s : Session) (y : ℚ) (dialog : Option ℚ) (lw lh : ℚ)
    (h : MInv s) : MInv (addKdaMarker s y dialog lw lh) := by
  rcases h with ⟨h1, h2, h3⟩
  rcases dialog with _ | val
  · exact ⟨h1, h2, h3⟩
  rcases hpi : s.pixmapItem with _ | off
  · simp only [addKdaMarker, hpi]
    exact ⟨h1, h2, h3⟩
  simp only [addKdaMarker, hpi]
  have hq : ∀ a b : MarkerEntry, ¬ yle a b → stably b a := by
    intro a b hab hy
    exact absurd (le_of_eq hy.symm) hab
  refine ⟨List.sorted_insertionSort yle _, ?_, ?_⟩ <;> dsimp only
  · refine pairwise_insertionSort_of stably hq _ ?_
    refine List.pairwise_append.mpr ⟨h2, List.pairwise_singleton _ _, ?_⟩
    intro a ha e he hy
    rcases List.mem_singleton.mp he with rfl
    exact h3 a ha
  · intro m hm
    rcases List.mem_append.mp ((List.mem_insertionSort yle).mp hm) with hm | hm
    · exact Nat.lt_trans (h3 m hm) (by omega)
    · rcases List.mem_singleton.mp hm with rfl
      simp

lemma minv_undoLastKda (s : Session) (h : MInv s) : MInv (undoLastKda s) := by
  rcases h with ⟨h1, h2, h3⟩
  rcases hl : s.kdaMarkers.getLast? with _ | last
  · simp only [undoLastKda, hl]
    exact ⟨h1, h2, h3⟩
  · simp only [undoLastKda, hl]
    exact ⟨List.Pairwise.sublist (List.dropLast_sublist _) h1,
      List.Pairwise.sublist (List.dropLast_sublist _) h2,
      fun m hm => h3 m ((List.dropLast_sublist _).subset hm)⟩

lemma minv_clearAllKda (s : Session) : MInv (clearAllKda s) := by
  refine ⟨List.Pairwise.nil, List.Pairwise.nil, ?_⟩
  intro m hm
  simp [clearAllKda] at hm

lemma minv_foldl (ops : List StoreOp) :
    ∀ s : Session, MInv s → MInv (ops.foldl storeStep s) := by
  induction ops with
  | nil => intro s h; exact h
  | cons op ops ih =>
    intro s h
    rw [List.foldl_cons]
    refine ih _ ?_
    cases op with
    | add y d lw lh => exact minv_addKdaMarker s y d lw lh h
    | undo => exact minv_undoLastKda s h
    | clear => exact minv_clearAllKda s

lemma minv_sOpen : MInv sOpen := by
  have h : sOpen.kdaMarkers = [] := by decide
  refine ⟨?_, ?_, ?_⟩ <;> rw [h] <;> simp

/-- C3: after any sequence of marker-store operations (kDa insertions with
their dialog outcomes, interleaved undo-last and clear-all) on a freshly
opened image, the stored marker list is non-decreasing in y, and among
markers of equal y the graphics-item ids -- allocated in insertion order --
are strictly increasing: insertion order is preserved among equal keys, i.e.
the re-sort on every insertion is stable. -/
theorem store_sorted_and_stable (ops : List StoreOp) :
    (runStoreOps ops).kdaMarkers.Pairwise yle ∧
    (runStoreOps ops).kdaMarkers.Pairwise stably :=
  ⟨(minv_foldl ops sOpen minv_sOpen).1, (minv_foldl ops sOpen minv_sOpen).2.1⟩

/-- CanvasView.mode: None ("idle"), "crop" or "mark". -/
inductive Mode
  | idle
  | crop
  | mark
deriving DecidableEq

/-- The CanvasView state: the mode string, whether the rubber band exists and
is visible, the drag origin, and whether the crop/mark callbacks are wired
(enable_crop_mode / enable_mark_mode set mode and callback together). -/
structure ViewState where
  mode : Mode
  rubberBandVisible : Bool
  origin : ℤ × ℤ
  cropCallbackSet : Bool
  markCallbackSet : Bool
deriving DecidableEq

/-- CanvasView.mousePressEvent (mainb.py lines 26-38): a left press in crop
mode with the crop callback wired remembers the origin and shows the rubber
band; a left press in mark mode fires the mark callback (a Session effect,
add_kda_marker) and leaves the view state untouched; anything else falls
through to the superclass. -/
def mousePressEvent (v : ViewState) (leftButton : Bool) (pos : ℤ × ℤ) :
    ViewState :=
  if leftButton = true ∧ v.mode = Mode.crop ∧ v.cropCallbackSet = true then
    { v with origin := pos, rubberBandVisible := true }
  else v

/-- CanvasView.mouseMoveEvent (mainb.py lines 40-45): only updates the rubber
band's geometry; no mode or visibility change. -/
def mouseMoveEvent (v : ViewState) (_pos : ℤ × ℤ) : ViewState := v

/-- CanvasView.mouseReleaseEvent (mainb.py lines 47-56): if the rubber band
is visible it is hidden, the crop callback fires on the normalized mapped
rectangle, and the mode is reset to None (idle) -- crop is one-shot. -/
def mouseReleaseEvent (v : ViewState) (_pos : ℤ × ℤ) : ViewState :=
  if v.rubberBandVisible = true then
    { v with rubberBandVisible := false, mode := Mode.idle }
  else v

/-- MainWindow.enable_crop_mode (mainb.py lines 222-226): a no-op without an
image; otherwise arms crop mode and wires the crop callback.  These explicit
tool-selection commands are the only code that sets mode to crop or mark. -/
def enableCropMode (s : Session) (v : ViewState) : ViewState :=
  if s.currentPixmap.isSome then
    { v with mode := Mode.crop, cropCallbackSet := true }
  else v

/-- MainWindow.enable_mark_mode (mainb.py lines 172-176). -/
def enableMarkMode (s : Session) (v : ViewState) : ViewState :=
  if s.currentPixmap.isSome then
    { v with mode := Mode.mark, markCallbackSet := true }
  else v

inductive MouseEv
  | press (leftButton : Bool) (pos : ℤ × ℤ)
  | move (pos : ℤ × ℤ)
  | release (pos : ℤ × ℤ)

def mouseStep (v : ViewState) (e : MouseEv) : ViewState :=
  match e with
  | .press b p => mousePressEvent v b p
  | .move p => mouseMoveEvent v p
  | .release p => mouseReleaseEvent v p

lemma mouseStep_fixed_of_mark (v : ViewState) (e : MouseEv)
    (hm : v.mode = Mode.mark) (hb : v.rubberBandVisible = false) :
    mouseStep v e = v := by
  cases e with
  | press b p => simp [mouseStep, mousePressEvent, hm]
  | move p => rfl
  | release p => simp [mouseStep, mouseReleaseEvent, hb]

lemma foldl_fixed_of_mark (evs : List MouseEv) :
    ∀ v : ViewState, v.mode = Mode.mark → v.rubberBandVisible = false →
      evs.foldl mouseStep v = v := by
  induction evs with
  | nil => intro v _ _; rfl
  | cons e evs ih =>
    intro v hm hb
    rw [List.foldl_cons, mouseStep_fixed_of_mark v e hm hb]
    exact ih v hm hb

/-- C8: the interaction mode is one-shot for crop but persistent for marking.
Completing one drag-select gesture (press, move, release) in crop mode with
the crop callback wired always lands in idle mode; a marker-placing press in
mark mode leaves the view state entirely unchanged; and from any mark-mode
state with no rubber band showing (the band only ever shows during a crop
drag), no sequence of mouse events whatsoever leaves mark mode -- only the
explicit tool-selection commands enableCropMode / enableMarkMode change it. -/
theorem one_shot_crop_persistent_mark (v t : ViewState) (p q r : ℤ × ℤ)
    (b : Bool) (evs : List MouseEv)
    (hs : v.mode = Mode.crop) (hcb : v.cropCallbackSet = true)
    (ht : t.mode = Mode.mark) (hb : t.rubberBandVisible = false) :
    (mouseReleaseEvent (mouseMoveEvent (mousePressEvent v true p) q) r).mode =
      Mode.idle ∧
    mousePressEvent t b p = t ∧
    (evs.foldl mouseStep t).mode = Mode.mark := by
  refine ⟨?_, ?_, ?_⟩
  · simp [mousePressEvent, mouseMoveEvent, mouseReleaseEvent, hs, hcb]
  · simp [mousePressEvent, ht]
  · rw [foldl_fixed_of_mark evs t ht hb]
    exact ht

theorem one_shot_crop_persistent_mark_witness :
    (mouseReleaseEvent (mouseMoveEvent (mousePressEvent
        ⟨Mode.crop, false, (0, 0), true, false⟩ true (1, 1)) (2, 2)) (3, 3)).mode =
      Mode.idle ∧
    mousePressEvent ⟨Mode.mark, false, (0, 0), false, true⟩ true (4, 4) =
      ⟨Mode.mark, false, (0, 0), false, true⟩ ∧
    (([MouseEv.press true (5, 5), MouseEv.press true (6, 6),
        MouseEv.release (7, 7)]).foldl mouseStep
      ⟨Mode.mark, false, (0, 0), false, true⟩).mode = Mode.mark :=
  one_shot_crop_persistent_mark ⟨Mode.crop, false, (0, 0), true, false⟩
    ⟨Mode.mark, false, (0, 0), false, true⟩ (1, 1) (2, 2) (3, 3) true
    [MouseEv.press true (5, 5), MouseEv.press true (6, 6), MouseEv.release (7, 7)]
    rfl rfl rfl rfl

/-- Qt qRound: round half away from zero ((int)(d + 0.5) for d ≥ 0,
(int)(d - 0.5) otherwise; the integer cast truncates toward zero). -/
def qRound (x : ℚ) : ℤ := if 0 ≤ x then ⌊x + 1 / 2⌋ else ⌈x - 1 / 2⌉

/-- Qt QRectF: real-valued rectangle stored as position plus size. -/
structure QRectF where
  x : ℚ
  y : ℚ
  w : ℚ
  h : ℚ

/-- Qt 6 QRectF.toRect (qrect.h): position rounded to the nearest integers,
sizes rounded with a quarter-weighted compensation for the position rounding
error; the result is stored with Qt's inclusive-corner convention
x2 = x + width - 1. -/
def QRectF.toRect (r : QRectF) : QRectI :=
  let nx := qRound r.x
  let ny := qRound r.y
  let nw := qRound (r.w + (r.x - nx) * (1 / 4))
  let nh := qRound (r.h + (r.y - ny) * (1 / 4))
  ⟨nx, ny, nx + nw - 1, ny + nh - 1⟩

/-- Qt 6 QRect.normalized: swap the two corner coordinates on any axis where
they are in the wrong order, yielding non-negative width and height. -/
def QRectI.normalized (r : QRectI) : QRectI :=
  let a := if r.x2 < r.x1 then (r.x2, r.x1) else (r.x1, r.x2)
  let b := if r.y2 < r.y1 then (r.y2, r.y1) else (r.y1, r.y2)
  ⟨a.1, b.1, a.2, b.2⟩

/-- Qt QRect(p1, p2): the two points are stored as the corners. -/
def qrectOfPoints (p1 p2 : ℤ × ℤ) : QRectI := ⟨p1.1, p1.2, p2.1, p2.2⟩

/-- The view transform (QGraphicsView), an arbitrary affine map; fitInView
yields a scale plus translation, but nothing below depends on its shape. -/
structure Affine where
  m11 : ℚ
  m12 : ℚ
  m21 : ℚ
  m22 : ℚ
  dx : ℚ
  dy : ℚ

def Affine.mapPt (T : Affine) (p : ℚ × ℚ) : ℚ × ℚ :=
  (T.m11 * p.1 + T.m21 * p.2 + T.dx, T.m12 * p.1 + T.m22 * p.2 + T.dy)

/-- QGraphicsView.mapToScene(QRect) maps the four corners of the rectangle
(with +1 on the far edges, Qt's inclusive-corner convention) through the view
transform, and QPolygonF.boundingRect takes the componentwise min and max of
the mapped corners. -/
def mapRectBounding (T : Affine) (r : QRectI) : QRectF :=
  let p1 := T.mapPt ((r.x1 : ℚ), (r.y1 : ℚ))
  let p2 := T.mapPt (((r.x2 + 1 : ℤ) : ℚ), (r.y1 : ℚ))
  let p3 := T.mapPt (((r.x2 + 1 : ℤ) : ℚ), ((r.y2 + 1 : ℤ) : ℚ))
  let p4 := T.mapPt ((r.x1 : ℚ), ((r.y2 + 1 : ℤ) : ℚ))
  let mnx := min (min p1.1 p2.1) (min p3.1 p4.1)
  let mny := min (min p1.2 p2.2) (min p3.2 p4.2)
  let mxx := max (max p1.1 p2.1) (max p3.1 p4.1)
  let mxy := max (max p1.2 p2.2) (max p3.2 p4.2)
  ⟨mnx, mny, mxx - mnx, mxy - mny⟩

/-- CanvasView.mouseReleaseEvent, mainb.py lines 50-51 (identically maina.py
lines 46-47): the rectangle handed to crop_region is
mapToScene(QRect(origin, event.pos()).normalized()).boundingRect().toRect(). -/
def gestureSceneRect (origin pos : ℤ × ℤ) (T : Affine) : QRectI :=
  (mapRectBounding T ((qrectOfPoints origin pos).normalized)).toRect

lemma qRound_le_add_half (x : ℚ) : (qRound x : ℚ) ≤ x + 1 / 2 := by
  unfold qRound
  split
  · exact Int.floor_le _
  · have h := Int.ceil_lt_add_one (x - 1 / 2)
    push_cast at h ⊢
    linarith

lemma qRound_nonneg (x : ℚ) (h : -(1 / 8) ≤ x) : 0 ≤ qRound x := by
  unfold qRound
  split
  · exact Int.le_floor.mpr (by push_cast; linarith)
  · have h2 : (-1 : ℤ) < ⌈x - 1 / 2⌉ := Int.lt_ceil.mpr (by push_cast; linarith)
    omega

lemma toRect_size_nonneg (r : QRectF) (hw : 0 ≤ r.w) (hh : 0 ≤ r.h) :
    0 ≤ r.toRect.width ∧ 0 ≤ r.toRect.height := by
  have hx := qRound_le_add_half r.x
  have hy := qRound_le_add_half r.y
  have hwq : 0 ≤ qRound (r.w + (r.x - qRound r.x) * (1 / 4)) :=
    qRound_nonneg _ (by linarith)
  have hhq : 0 ≤ qRound (r.h + (r.y - qRound r.y) * (1 / 4)) :=
    qRound_nonneg _ (by linarith)
  simp only [QRectF.toRect, QRectI.width, QRectI.height]
  omega

lemma mapRectBounding_size_nonneg (T : Affine) (r : QRectI) :
    0 ≤ (mapRectBounding T r).w ∧ 0 ≤ (mapRectBounding T r).h := by
  simp only [mapRectBounding]
  constructor
  · have h1 : min (min (T.mapPt ((r.x1 : ℚ), (r.y1 : ℚ))).1
        (T.mapPt (((r.x2 + 1 : ℤ) : ℚ), (r.y1 : ℚ))).1)
        (min (T.mapPt (((r.x2 + 1 : ℤ) : ℚ), ((r.y2 + 1 : ℤ) : ℚ))).1
        (T.mapPt ((r.x1 : ℚ), ((r.y2 + 1 : ℤ) : ℚ))).1) ≤
        (T.mapPt ((r.x1 : ℚ), (r.y1 : ℚ))).1 :=
      le_trans (min_le_left _ _) (min_le_left _ _)
    have h2 : (T.mapPt ((r.x1 : ℚ), (r.y1 : ℚ))).1 ≤
        max (max (T.mapPt ((r.x1 : ℚ), (r.y1 : ℚ))).1
        (T.mapPt (((r.x2 + 1 : ℤ) : ℚ), (r.y1 : ℚ))).1)
        (max (T.mapPt (((r.x2 + 1 : ℤ) : ℚ), ((r.y2 + 1 : ℤ) : ℚ))).1
        (T.mapPt ((r.x1 : ℚ), ((r.y2 + 1 : ℤ) : ℚ))).1) :=
      le_trans (le_max_left _ _) (le_max_left _ _)
    linarith
  · have h1 : min (min (T.mapPt ((r.x1 : ℚ), (r.y1 : ℚ))).2
        (T.mapPt (((r.x2 + 1 : ℤ) : ℚ), (r.y1 : ℚ))).2)
        (min (T.mapPt (((r.x2 + 1 : ℤ) : ℚ), ((r.y2 + 1 : ℤ) : ℚ))).2
        (T.mapPt ((r.x1 : ℚ), ((r.y2 + 1 : ℤ) : ℚ))).2) ≤
        (T.mapPt ((r.x1 : ℚ), (r.y1 : ℚ))).2 :=
      le_trans (min_le_left _ _) (min_le_left _ _)
    have h2 : (T.mapPt ((r.x1 : ℚ), (r.y1 : ℚ))).2 ≤
        max (max (T.mapPt ((r.x1 : ℚ), (r.y1 : ℚ))).2
        (T.mapPt (((r.x2 + 1 : ℤ) : ℚ), (r.y1 : ℚ))).2)
        (max (T.mapPt (((r.x2 + 1 : ℤ) : ℚ), ((r.y2 + 1 : ℤ) : ℚ))).2
        (T.mapPt ((r.x1 : ℚ), ((r.y2 + 1 : ℤ) : ℚ))).2) :=
      le_trans (le_max_left _ _) (le_max_left _ _)
    linarith

/-- C10: whatever the drag direction and the current view transform, the
selection rectangle delivered to the crop operation is normalized: its width
and height are non-negative, so its left edge x1 is at most its right edge
x1 + width and its top edge y1 is at most its bottom edge y1 + height.
(QRect(origin, pos).normalized() swaps reversed corners, the mapped bounding
rectangle has non-negative size by min/max construction, and toRect's
rounding preserves non-negativity.) -/
theorem gesture_rect_normalized (origin pos : ℤ × ℤ) (T : Affine) :
    0 ≤ (gestureSceneRect origin pos T).width ∧
    0 ≤ (gestureSceneRect origin pos T).height ∧
    (gestureSceneRect origin pos T).x1 ≤
      (gestureSceneRect origin pos T).x1 + (gestureSceneRect origin pos T).width ∧
    (gestureSceneRect origin pos T).y1 ≤
      (gestureSceneRect origin pos T).y1 + (gestureSceneRect origin pos T).height := by
  have hs := mapRectBounding_size_nonneg T ((qrectOfPoints origin pos).normalized)
  have ht := toRect_size_nonneg _ hs.1 hs.2
  have hw : 0 ≤ (gestureSceneRect origin pos T).width := ht.1
  have hh : 0 ≤ (gestureSceneRect origin pos T).height := ht.2
  exact ⟨hw, hh, by omega, by omega⟩

end WBlot
